import Mathlib

/-!
Verification of the atomic transfer core of Go-Bank-Pro.

The development shallowly embeds the Go package in `db/sqlc/store.go`
(the transaction coordinator `execTx`, the transfer engine `TransferTx`
and its helper `addMoney`) together with the ledger-store primitives it
calls (`CreateTransfer`, `CreateEntry`, `AddAccountBalance`).  The
primitives are generated code that is not part of the sources, so they
are modelled from the specification of the Ledger Store (spec section
4.1 and the SQL schema in `db/migration/000001_init_schema.up.sql`).

The database is a record of three tables; the effect of one call is a
pure state transformation, and every store operation issued is recorded
in an event log so that statements about the order in which operations
are issued can be made.  Storage faults that do not depend on the data
(failure of transaction begin, commit, or rollback) are injected through
an explicit environment `TxEnv`; data-dependent faults (a foreign-key
violation, an update touching no row) arise from the database contents
themselves.
-/

namespace GoBankPro

/-- Account row of the `accounts` table.  Modelled from the spec: the
generated sqlc model file is not part of the sources.  Spec section 3:
identity is an integer id; attributes are owner, balance (signed
integer, smallest currency unit) and currency. -/
structure Account where
  id : Int
  owner : String
  balance : Int
  currency : String
deriving DecidableEq

/-- Entry row of the `entries` table.  Modelled from the spec: the
generated sqlc model file is not part of the sources.  Spec section 3:
integer id, owning account id, signed amount. -/
structure Entry where
  id : Int
  accountID : Int
  amount : Int
deriving DecidableEq

/-- Transfer row of the `transfers` table.  Modelled from the spec: the
generated sqlc model file is not part of the sources.  Spec section 3:
integer id, from-account id, to-account id, amount. -/
structure Transfer where
  id : Int
  fromAccountID : Int
  toAccountID : Int
  amount : Int
deriving DecidableEq

/-- The database: the three tables of the schema, plus the next value of
the two `bigserial` id sequences for entries and transfers. -/
structure DB where
  accounts : List Account
  entries : List Entry
  transfers : List Transfer
  nextEntryID : Int
  nextTransferID : Int
deriving DecidableEq

/-- One store operation issued by the transfer engine, as recorded in
the event log of a run. -/
inductive Event where
  | createTransfer (fromID toID amount : Int)
  | createEntry (accountID amount : Int)
  | addAccountBalance (id amount : Int)
deriving DecidableEq

/-- The state threaded through a unit of work running inside one
transaction: the database as seen by the transaction, and the log of
store operations issued so far. -/
structure TxState where
  db : DB
  log : List Event
deriving DecidableEq

/-- Point lookup of an account row by primary key. -/
def findAccount (db : DB) (id : Int) : Option Account :=
  db.accounts.find? (fun a => a.id == id)

/-- Update of the balance column of the row with the given id:
the effect of the SQL `UPDATE accounts SET balance = balance + amount
WHERE id = id` on the account table. -/
def updBal (id amount : Int) (l : List Account) : List Account :=
  l.map (fun b => if b.id == id then { b with balance := b.balance + amount } else b)

/-- Modelled from the spec: `AddAccountBalance(id, delta)` of the Ledger
Store (spec section 4.1), whose generated implementation is not part of
the sources.  It atomically increments the stored balance by the delta
and returns the post-update row; with no matching row the single-row
query reports an error. -/
def addAccountBalance (s : TxState) (id amount : Int) : Except String Account × TxState :=
  match findAccount s.db id with
  | none =>
      (Except.error "sql: no rows in result set",
       { s with log := s.log ++ [Event.addAccountBalance id amount] })
  | some a =>
      (Except.ok { a with balance := a.balance + amount },
       { db := { s.db with accounts := updBal id amount s.db.accounts },
         log := s.log ++ [Event.addAccountBalance id amount] })

/-- Modelled from the spec: `CreateEntry(accountID, amount)` of the
Ledger Store (spec section 4.1), whose generated implementation is not
part of the sources.  It inserts an immutable entry row with the next
serial id; the schema enforces the foreign key
`entries.account_id -> accounts.id`, so the insert fails when the
account does not exist. -/
def createEntry (s : TxState) (accountID amount : Int) : Except String Entry × TxState :=
  match findAccount s.db accountID with
  | none =>
      (Except.error "violates foreign key constraint entries_account_id_fkey",
       { s with log := s.log ++ [Event.createEntry accountID amount] })
  | some _ =>
      (Except.ok { id := s.db.nextEntryID, accountID := accountID, amount := amount },
       { db := { s.db with
           entries := s.db.entries ++
             [{ id := s.db.nextEntryID, accountID := accountID, amount := amount }],
           nextEntryID := s.db.nextEntryID + 1 },
         log := s.log ++ [Event.createEntry accountID amount] })

/-- Modelled from the spec: `CreateTransfer(fromID, toID, amount)` of
the Ledger Store (spec section 4.1), whose generated implementation is
not part of the sources.  It inserts an immutable transfer row with the
next serial id; the schema enforces foreign keys from both account
columns to `accounts.id`, so the insert fails when either account does
not exist. -/
def createTransfer (s : TxState) (fromID toID amount : Int) : Except String Transfer × TxState :=
  match findAccount s.db fromID with
  | none =>
      (Except.error "violates foreign key constraint transfers_from_account_id_fkey",
       { s with log := s.log ++ [Event.createTransfer fromID toID amount] })
  | some _ =>
      match findAccount s.db toID with
      | none =>
          (Except.error "violates foreign key constraint transfers_to_account_id_fkey",
           { s with log := s.log ++ [Event.createTransfer fromID toID amount] })
      | some _ =>
          (Except.ok { id := s.db.nextTransferID, fromAccountID := fromID,
                       toAccountID := toID, amount := amount },
           { db := { s.db with
               transfers := s.db.transfers ++
                 [{ id := s.db.nextTransferID, fromAccountID := fromID,
                    toAccountID := toID, amount := amount }],
               nextTransferID := s.db.nextTransferID + 1 },
             log := s.log ++ [Event.createTransfer fromID toID amount] })

/-- Environment of injected storage faults for one transaction:
whether beginning the transaction fails, whether committing it fails,
and whether rolling it back fails, each with the error it reports. -/
structure TxEnv where
  beginErr : Option String
  commitErr : Option String
  rollbackErr : Option String
deriving DecidableEq

/-- Embedding of `execTx` (store.go, lines 37 to 55): begin a
transaction, run the unit of work on a query handle bound to it, commit
on success and roll back on failure.  A begin failure is returned before
the work runs; a rollback failure is combined with the original error of
the work exactly as `fmt.Errorf` formats it in the source.  On every
non-committed outcome the database reverts to its state at begin, while
the log keeps the operations that were issued. -/
def execTx {α : Type} (env : TxEnv) (db : DB)
    (fn : TxState → Except String α × TxState) : Except String α × TxState :=
  match env.beginErr with
  | some e => (Except.error e, { db := db, log := [] })
  | none =>
      match fn { db := db, log := [] } with
      | (Except.error e, s) =>
          match env.rollbackErr with
          | some rbErr =>
              (Except.error ("tx error: " ++ e ++ ", rollback error: " ++ rbErr),
               { db := db, log := s.log })
          | none => (Except.error e, { db := db, log := s.log })
      | (Except.ok a, s) =>
          match env.commitErr with
          | some e => (Except.error e, { db := db, log := s.log })
          | none => (Except.ok a, s)

/-- Embedding of `TransferTxParams` (store.go, lines 58 to 62). -/
structure TransferTxParams where
  fromAccountID : Int
  toAccountID : Int
  amount : Int
deriving DecidableEq

/-- Embedding of `TransferTxResult` (store.go, lines 66 to 72). -/
structure TransferTxResult where
  transfer : Transfer
  fromAccount : Account
  toAccount : Account
  fromEntry : Entry
  toEntry : Entry
deriving DecidableEq

/-- Embedding of `addMoney` (store.go, lines 138 to 163): add `amount1`
to the balance of `accountID1`, then `amount2` to the balance of
`accountID2`, returning the two post-update rows, stopping at the first
error. -/
def addMoney (s : TxState) (accountID1 amount1 accountID2 amount2 : Int) :
    Except String (Account × Account) × TxState :=
  match addAccountBalance s accountID1 amount1 with
  | (Except.error e, s1) => (Except.error e, s1)
  | (Except.ok account1, s1) =>
      match addAccountBalance s1 accountID2 amount2 with
      | (Except.error e, s2) => (Except.error e, s2)
      | (Except.ok account2, s2) => (Except.ok (account1, account2), s2)

/-- Embedding of the closure passed to `execTx` inside `TransferTx`
(store.go, lines 83 to 131): create the transfer row, the debit entry on
the from-account, the credit entry on the to-account, then apply the two
balance deltas, updating the account with the smaller id first; each
step runs only when all earlier steps succeeded.  In the branch where
`FromAccountID < ToAccountID` fails, the source assigns the first value
returned by `addMoney` to `result.FromAccount` and the second to
`result.ToAccount` even though there the first updated account is the
to-account; the embedding reproduces that assignment verbatim. -/
def transferTxWork (arg : TransferTxParams) (s : TxState) :
    Except String TransferTxResult × TxState :=
  match createTransfer s arg.fromAccountID arg.toAccountID arg.amount with
  | (Except.error e, s1) => (Except.error e, s1)
  | (Except.ok transfer, s1) =>
  match createEntry s1 arg.fromAccountID (-arg.amount) with
  | (Except.error e, s2) => (Except.error e, s2)
  | (Except.ok fromEntry, s2) =>
  match createEntry s2 arg.toAccountID arg.amount with
  | (Except.error e, s3) => (Except.error e, s3)
  | (Except.ok toEntry, s3) =>
  if arg.fromAccountID < arg.toAccountID then
    match addMoney s3 arg.fromAccountID (-arg.amount) arg.toAccountID arg.amount with
    | (Except.error e, s4) => (Except.error e, s4)
    | (Except.ok (account1, account2), s4) =>
        (Except.ok { transfer := transfer, fromAccount := account1, toAccount := account2,
                     fromEntry := fromEntry, toEntry := toEntry }, s4)
  else
    match addMoney s3 arg.toAccountID arg.amount arg.fromAccountID (-arg.amount) with
    | (Except.error e, s4) => (Except.error e, s4)
    | (Except.ok (account1, account2), s4) =>
        (Except.ok { transfer := transfer, fromAccount := account1, toAccount := account2,
                     fromEntry := fromEntry, toEntry := toEntry }, s4)

/-- Embedding of `TransferTx` (store.go, lines 80 to 134): run the
transfer work inside one transaction via `execTx`. -/
def TransferTx (env : TxEnv) (db : DB) (arg : TransferTxParams) :
    Except String TransferTxResult × TxState :=
  execTx env db (transferTxWork arg)

/-- The full sequence of store operations `TransferTx` is meant to
issue for the given parameters, in order: the transfer insert, the debit
entry insert, the credit entry insert, and the two balance updates with
the smaller account id updated first. -/
def plannedOps (arg : TransferTxParams) : List Event :=
  [Event.createTransfer arg.fromAccountID arg.toAccountID arg.amount,
   Event.createEntry arg.fromAccountID (-arg.amount),
   Event.createEntry arg.toAccountID arg.amount] ++
  (if arg.fromAccountID < arg.toAccountID then
    [Event.addAccountBalance arg.fromAccountID (-arg.amount),
     Event.addAccountBalance arg.toAccountID arg.amount]
   else
    [Event.addAccountBalance arg.toAccountID arg.amount,
     Event.addAccountBalance arg.fromAccountID (-arg.amount)])

/-- Recogniser of balance-update events in a log. -/
def isBalanceOp : Event → Bool
  | Event.addAccountBalance _ _ => true
  | _ => false

/-- A fault-free transaction environment, used to instantiate theorems
on concrete runs. -/
def envW : TxEnv := { beginErr := none, commitErr := none, rollbackErr := none }

/-- A two-account database, used to instantiate theorems on concrete
runs. -/
def dbW : DB :=
  { accounts := [{ id := 1, owner := "alice", balance := 100, currency := "USD" },
                 { id := 2, owner := "bob", balance := 50, currency := "USD" }],
    entries := [], transfers := [], nextEntryID := 1, nextTransferID := 1 }

/-! ## Basic lemmas about the ledger-store primitives -/

theorem updBal_elem_id (b : Account) (x d : Int) :
    (if b.id == x then { b with balance := b.balance + d } else b).id = b.id := by
  split <;> rfl

theorem findAccount_id {db : DB} {id : Int} {a : Account}
    (h : findAccount db id = some a) : a.id = id := by
  have hp := List.find?_some h
  simpa using hp

theorem find_updBal (l : List Account) (x y d : Int) :
    (updBal x d l).find? (fun a => a.id == y) =
      (l.find? (fun a => a.id == y)).map
        (fun a => if a.id == x then { a with balance := a.balance + d } else a) := by
  induction l with
  | nil => simp [updBal]
  | cons b t ih =>
      have hcons : updBal x d (b :: t) =
          (if b.id == x then { b with balance := b.balance + d } else b) :: updBal x d t := rfl
      rw [hcons]
      cases hbeq : (b.id == y) with
      | true =>
          rw [List.find?_cons_of_pos _ (by rw [updBal_elem_id]; exact hbeq),
              @List.find?_cons_of_pos _ (fun a => a.id == y) b t hbeq]
          rfl
      | false =>
          rw [List.find?_cons_of_neg _ (by rw [updBal_elem_id]; simp [hbeq]),
              @List.find?_cons_of_neg _ (fun a => a.id == y) b t (by simp [hbeq])]
          exact ih

/-! ## Characterisation of a transfer unit of work on databases holding
both referenced accounts -/

theorem transferTxWork_ok_lt (arg : TransferTxParams) (db : DB) (l : List Event)
    (af at2 : Account)
    (hF : findAccount db arg.fromAccountID = some af)
    (hT : findAccount db arg.toAccountID = some at2)
    (hlt : arg.fromAccountID < arg.toAccountID) :
    transferTxWork arg { db := db, log := l } =
      (Except.ok
        { transfer := { id := db.nextTransferID, fromAccountID := arg.fromAccountID,
                        toAccountID := arg.toAccountID, amount := arg.amount },
          fromAccount := { af with balance := af.balance + -arg.amount },
          toAccount := { at2 with balance := at2.balance + arg.amount },
          fromEntry := { id := db.nextEntryID, accountID := arg.fromAccountID,
                         amount := -arg.amount },
          toEntry := { id := db.nextEntryID + 1, accountID := arg.toAccountID,
                       amount := arg.amount } },
       { db := { accounts := updBal arg.toAccountID arg.amount
                   (updBal arg.fromAccountID (-arg.amount) db.accounts),
                 entries := db.entries ++
                   [{ id := db.nextEntryID, accountID := arg.fromAccountID,
                      amount := -arg.amount },
                    { id := db.nextEntryID + 1, accountID := arg.toAccountID,
                      amount := arg.amount }],
                 transfers := db.transfers ++
                   [{ id := db.nextTransferID, fromAccountID := arg.fromAccountID,
                      toAccountID := arg.toAccountID, amount := arg.amount }],
                 nextEntryID := db.nextEntryID + 1 + 1,
                 nextTransferID := db.nextTransferID + 1 },
         log := l ++ plannedOps arg }) := by
  have hF2 : db.accounts.find? (fun a => a.id == arg.fromAccountID) = some af := hF
  have hT2 : db.accounts.find? (fun a => a.id == arg.toAccountID) = some at2 := hT
  have hne : at2.id ≠ arg.fromAccountID := by
    rw [findAccount_id hT]; exact (ne_of_lt hlt).symm
  have hat2 : (at2.id == arg.fromAccountID) = false := by
    simp [hne]
  simp [transferTxWork, createTransfer, createEntry, addAccountBalance, addMoney,
        findAccount, plannedOps, find_updBal, hF2, hT2, hat2, hne, hlt]

theorem transferTxWork_ok_gt (arg : TransferTxParams) (db : DB) (l : List Event)
    (af at2 : Account)
    (hF : findAccount db arg.fromAccountID = some af)
    (hT : findAccount db arg.toAccountID = some at2)
    (hgt : arg.toAccountID < arg.fromAccountID) :
    transferTxWork arg { db := db, log := l } =
      (Except.ok
        { transfer := { id := db.nextTransferID, fromAccountID := arg.fromAccountID,
                        toAccountID := arg.toAccountID, amount := arg.amount },
          fromAccount := { at2 with balance := at2.balance + arg.amount },
          toAccount := { af with balance := af.balance + -arg.amount },
          fromEntry := { id := db.nextEntryID, accountID := arg.fromAccountID,
                         amount := -arg.amount },
          toEntry := { id := db.nextEntryID + 1, accountID := arg.toAccountID,
                       amount := arg.amount } },
       { db := { accounts := updBal arg.fromAccountID (-arg.amount)
                   (updBal arg.toAccountID arg.amount db.accounts),
                 entries := db.entries ++
                   [{ id := db.nextEntryID, accountID := arg.fromAccountID,
                      amount := -arg.amount },
                    { id := db.nextEntryID + 1, accountID := arg.toAccountID,
                      amount := arg.amount }],
                 transfers := db.transfers ++
                   [{ id := db.nextTransferID, fromAccountID := arg.fromAccountID,
                      toAccountID := arg.toAccountID, amount := arg.amount }],
                 nextEntryID := db.nextEntryID + 1 + 1,
                 nextTransferID := db.nextTransferID + 1 },
         log := l ++ plannedOps arg }) := by
  have hF2 : db.accounts.find? (fun a => a.id == arg.fromAccountID) = some af := hF
  have hT2 : db.accounts.find? (fun a => a.id == arg.toAccountID) = some at2 := hT
  have hne : af.id ≠ arg.toAccountID := by
    rw [findAccount_id hF]; exact (ne_of_lt hgt).symm
  have haf : (af.id == arg.toAccountID) = false := by
    simp [hne]
  have hnlt : ¬ arg.fromAccountID < arg.toAccountID := not_lt_of_gt hgt
  simp [transferTxWork, createTransfer, createEntry, addAccountBalance, addMoney,
        findAccount, plannedOps, find_updBal, hF2, hT2, haf, hne, hnlt]

theorem transferTxWork_ok_self (arg : TransferTxParams) (db : DB) (l : List Event)
    (af : Account)
    (hF : findAccount db arg.fromAccountID = some af)
    (heq : arg.fromAccountID = arg.toAccountID) :
    transferTxWork arg { db := db, log := l } =
      (Except.ok
        { transfer := { id := db.nextTransferID, fromAccountID := arg.fromAccountID,
                        toAccountID := arg.toAccountID, amount := arg.amount },
          fromAccount := { af with balance := af.balance + arg.amount },
          toAccount := { af with balance := af.balance + arg.amount + -arg.amount },
          fromEntry := { id := db.nextEntryID, accountID := arg.fromAccountID,
                         amount := -arg.amount },
          toEntry := { id := db.nextEntryID + 1, accountID := arg.toAccountID,
                       amount := arg.amount } },
       { db := { accounts := updBal arg.fromAccountID (-arg.amount)
                   (updBal arg.toAccountID arg.amount db.accounts),
                 entries := db.entries ++
                   [{ id := db.nextEntryID, accountID := arg.fromAccountID,
                      amount := -arg.amount },
                    { id := db.nextEntryID + 1, accountID := arg.toAccountID,
                      amount := arg.amount }],
                 transfers := db.transfers ++
                   [{ id := db.nextTransferID, fromAccountID := arg.fromAccountID,
                      toAccountID := arg.toAccountID, amount := arg.amount }],
                 nextEntryID := db.nextEntryID + 1 + 1,
                 nextTransferID := db.nextTransferID + 1 },
         log := l ++ plannedOps arg }) := by
  have hT2 : db.accounts.find? (fun a => a.id == arg.toAccountID) = some af := heq ▸ hF
  have haf2 : af.id = arg.toAccountID := findAccount_id hT2
  simp [transferTxWork, createTransfer, createEntry, addAccountBalance, addMoney,
        findAccount, plannedOps, find_updBal, heq, hT2, haf2]

/-! ## Characterisation of a transfer unit of work when a referenced
account is missing -/

theorem transferTxWork_err_noFrom (arg : TransferTxParams) (db : DB) (l : List Event)
    (hF : findAccount db arg.fromAccountID = none) :
    transferTxWork arg { db := db, log := l } =
      (Except.error "violates foreign key constraint transfers_from_account_id_fkey",
       { db := db,
         log := l ++ [Event.createTransfer arg.fromAccountID arg.toAccountID arg.amount] }) := by
  have hF2 : db.accounts.find? (fun a => a.id == arg.fromAccountID) = none := hF
  simp [transferTxWork, createTransfer, findAccount, hF2]

theorem transferTxWork_err_noTo (arg : TransferTxParams) (db : DB) (l : List Event)
    (af : Account)
    (hF : findAccount db arg.fromAccountID = some af)
    (hT : findAccount db arg.toAccountID = none) :
    transferTxWork arg { db := db, log := l } =
      (Except.error "violates foreign key constraint transfers_to_account_id_fkey",
       { db := db,
         log := l ++ [Event.createTransfer arg.fromAccountID arg.toAccountID arg.amount] }) := by
  have hF2 : db.accounts.find? (fun a => a.id == arg.fromAccountID) = some af := hF
  have hT2 : db.accounts.find? (fun a => a.id == arg.toAccountID) = none := hT
  simp [transferTxWork, createTransfer, findAccount, hF2, hT2]

/-! ## Inversion lemmas -/

theorem execTx_ok_elim {α : Type} (env : TxEnv) (db : DB)
    (fn : TxState → Except String α × TxState) (a : α) (s : TxState)
    (h : execTx env db fn = (Except.ok a, s)) :
    env.beginErr = none ∧ env.commitErr = none ∧
      fn { db := db, log := [] } = (Except.ok a, s) := by
  unfold execTx at h
  cases hb : env.beginErr with
  | some e => rw [hb] at h; simp at h
  | none =>
      rw [hb] at h
      rcases hw : fn { db := db, log := [] } with ⟨r, s1⟩
      rw [hw] at h
      cases r with
      | error e =>
          cases hr : env.rollbackErr with
          | some rb => rw [hr] at h; simp at h
          | none => rw [hr] at h; simp at h
      | ok a2 =>
          cases hc : env.commitErr with
          | some e => rw [hc] at h; simp at h
          | none =>
              rw [hc] at h
              simp only [Prod.mk.injEq, Except.ok.injEq] at h
              exact ⟨rfl, rfl, by rw [h.1, h.2]⟩

theorem execTx_error_db_unchanged {α : Type} (env : TxEnv) (db : DB)
    (fn : TxState → Except String α × TxState) (e : String) (s : TxState)
    (h : execTx env db fn = (Except.error e, s)) : s.db = db := by
  unfold execTx at h
  cases hb : env.beginErr with
  | some e2 =>
      rw [hb] at h
      simp only [Prod.mk.injEq] at h
      rw [← h.2]
  | none =>
      rw [hb] at h
      rcases hw : fn { db := db, log := [] } with ⟨r, s1⟩
      rw [hw] at h
      cases r with
      | error e2 =>
          cases hr : env.rollbackErr with
          | some rb =>
              rw [hr] at h
              simp only [Prod.mk.injEq] at h
              rw [← h.2]
          | none =>
              rw [hr] at h
              simp only [Prod.mk.injEq] at h
              rw [← h.2]
      | ok a =>
          cases hc : env.commitErr with
          | some e2 =>
              rw [hc] at h
              simp only [Prod.mk.injEq] at h
              rw [← h.2]
          | none => rw [hc] at h; simp at h

theorem execTx_log_eq {α : Type} (env : TxEnv) (db : DB)
    (fn : TxState → Except String α × TxState)
    (hb : env.beginErr = none) :
    (execTx env db fn).2.log = (fn { db := db, log := [] }).2.log := by
  unfold execTx
  rw [hb]
  rcases hw : fn { db := db, log := [] } with ⟨r, s1⟩
  cases r with
  | error e => cases hr : env.rollbackErr <;> simp [hr]
  | ok a => cases hc : env.commitErr <;> simp [hc]

theorem execTx_ok_intro {α : Type} (env : TxEnv) (db : DB)
    (fn : TxState → Except String α × TxState) (a : α) (s1 : TxState)
    (hb : env.beginErr = none) (hc : env.commitErr = none)
    (hw : fn { db := db, log := [] } = (Except.ok a, s1)) :
    execTx env db fn = (Except.ok a, s1) := by
  simp [execTx, hb, hw, hc]

theorem TransferTx_ok_elim (env : TxEnv) (db : DB) (arg : TransferTxParams)
    (res : TransferTxResult) (s : TxState)
    (h : TransferTx env db arg = (Except.ok res, s)) :
    env.beginErr = none ∧ env.commitErr = none ∧
      (∃ af, findAccount db arg.fromAccountID = some af) ∧
      (∃ at2, findAccount db arg.toAccountID = some at2) ∧
      transferTxWork arg { db := db, log := [] } = (Except.ok res, s) := by
  obtain ⟨hb, hc, hw⟩ := execTx_ok_elim env db (transferTxWork arg) res s h
  refine ⟨hb, hc, ?_, ?_, hw⟩
  · cases hF : findAccount db arg.fromAccountID with
    | some af => exact ⟨af, rfl⟩
    | none =>
        rw [transferTxWork_err_noFrom arg db [] hF] at hw
        simp at hw
  · cases hF : findAccount db arg.fromAccountID with
    | none =>
        rw [transferTxWork_err_noFrom arg db [] hF] at hw
        simp at hw
    | some af =>
        cases hT : findAccount db arg.toAccountID with
        | some at2 => exact ⟨at2, rfl⟩
        | none =>
            rw [transferTxWork_err_noTo arg db [] af hF hT] at hw
            simp at hw

/-! ## Claim theorems -/

/-- C1: for every successful transfer execution, the two
`AddAccountBalance` operations are issued in an order determined solely
by comparing the two account ids: when `FromAccountID < ToAccountID` the
from-account is updated first, otherwise the to-account is updated
first, regardless of which of the two is the source of the transfer. -/
theorem transfer_balance_update_order (env : TxEnv) (db : DB) (arg : TransferTxParams)
    (res : TransferTxResult) (s : TxState)
    (h : TransferTx env db arg = (Except.ok res, s)) :
    s.log.filter isBalanceOp =
      (if arg.fromAccountID < arg.toAccountID then
        [Event.addAccountBalance arg.fromAccountID (-arg.amount),
         Event.addAccountBalance arg.toAccountID arg.amount]
      else
        [Event.addAccountBalance arg.toAccountID arg.amount,
         Event.addAccountBalance arg.fromAccountID (-arg.amount)]) := by
  obtain ⟨hb, hc, ⟨af, hF⟩, ⟨at2, hT⟩, hw⟩ := TransferTx_ok_elim env db arg res s h
  rcases lt_trichotomy arg.fromAccountID arg.toAccountID with hlt | heq | hgt
  · rw [transferTxWork_ok_lt arg db [] af at2 hF hT hlt] at hw
    simp only [Prod.mk.injEq, Except.ok.injEq] at hw
    rw [← hw.2]
    simp [plannedOps, isBalanceOp, hlt]
  · have hnlt : ¬ arg.fromAccountID < arg.toAccountID := by rw [heq]; exact lt_irrefl _
    rw [transferTxWork_ok_self arg db [] af hF heq] at hw
    simp only [Prod.mk.injEq, Except.ok.injEq] at hw
    rw [← hw.2]
    simp [plannedOps, isBalanceOp, hnlt]
  · have hnlt : ¬ arg.fromAccountID < arg.toAccountID := not_lt_of_gt hgt
    rw [transferTxWork_ok_gt arg db [] af at2 hF hT hgt] at hw
    simp only [Prod.mk.injEq, Except.ok.injEq] at hw
    rw [← hw.2]
    simp [plannedOps, isBalanceOp, hnlt]

/-- Witness for C1: a concrete successful run in which the request goes
from the larger id 2 to the smaller id 1, and the to-account (id 1) is
updated first. -/
theorem transfer_balance_update_order_witness :
    (TransferTx envW dbW { fromAccountID := 2, toAccountID := 1, amount := 10 }).2.log.filter
        isBalanceOp =
      [Event.addAccountBalance 1 10, Event.addAccountBalance 2 (-10)] := by
  obtain ⟨res, s, h⟩ :
      ∃ res s, TransferTx envW dbW { fromAccountID := 2, toAccountID := 1, amount := 10 } =
        (Except.ok res, s) := ⟨_, _, rfl⟩
  have h2 := transfer_balance_update_order envW dbW
    { fromAccountID := 2, toAccountID := 1, amount := 10 } res s h
  rw [h]
  simpa using h2

/-- C2, counterexample evaluation: on a database holding account 1
(balance 100) and account 2 (balance 50), a transfer of 10 requested
from account 2 to account 1 succeeds, but the returned result labels the
post-update snapshot of account 1 (the destination) as `fromAccount` and
the snapshot of account 2 (the source) as `toAccount`: the labels follow
the internal update order, not the request direction, whenever
`FromAccountID > ToAccountID`. -/
theorem transfer_result_labels_swapped :
    (TransferTx envW dbW { fromAccountID := 2, toAccountID := 1, amount := 10 }).1 =
      Except.ok
        { transfer := { id := 1, fromAccountID := 2, toAccountID := 1, amount := 10 },
          fromAccount := { id := 1, owner := "alice", balance := 110, currency := "USD" },
          toAccount := { id := 2, owner := "bob", balance := 40, currency := "USD" },
          fromEntry := { id := 1, accountID := 2, amount := -10 },
          toEntry := { id := 2, accountID := 1, amount := 10 } } := by
  rfl

/-- C3: for every successful transfer between two distinct accounts both
present in the database, the from-account's new balance is its old
balance minus the amount, the to-account's new balance is its old
balance plus the amount, and the sum of the two balances is unchanged. -/
theorem transfer_balance_conservation (env : TxEnv) (db : DB) (arg : TransferTxParams)
    (res : TransferTxResult) (s : TxState) (af at2 : Account)
    (h : TransferTx env db arg = (Except.ok res, s))
    (hF : findAccount db arg.fromAccountID = some af)
    (hT : findAccount db arg.toAccountID = some at2)
    (hne : arg.fromAccountID ≠ arg.toAccountID) :
    findAccount s.db arg.fromAccountID = some { af with balance := af.balance - arg.amount } ∧
    findAccount s.db arg.toAccountID = some { at2 with balance := at2.balance + arg.amount } ∧
    af.balance - arg.amount + (at2.balance + arg.amount) = af.balance + at2.balance := by
  obtain ⟨hb, hc, hex1, hex2, hw⟩ := TransferTx_ok_elim env db arg res s h
  have hF2 : db.accounts.find? (fun a => a.id == arg.fromAccountID) = some af := hF
  have hT2 : db.accounts.find? (fun a => a.id == arg.toAccountID) = some at2 := hT
  have haf : af.id = arg.fromAccountID := findAccount_id hF
  have hat : at2.id = arg.toAccountID := findAccount_id hT
  have hne2 : arg.toAccountID ≠ arg.fromAccountID := Ne.symm hne
  rcases lt_trichotomy arg.fromAccountID arg.toAccountID with hlt | heq | hgt
  · rw [transferTxWork_ok_lt arg db [] af at2 hF hT hlt] at hw
    simp only [Prod.mk.injEq, Except.ok.injEq] at hw
    rw [← hw.2]
    refine ⟨?_, ?_, by ring⟩
    · simp [findAccount, find_updBal, hF2, haf, hne, hne2, sub_eq_add_neg]
    · simp [findAccount, find_updBal, hT2, hat, hne, hne2]
  · exact absurd heq hne
  · rw [transferTxWork_ok_gt arg db [] af at2 hF hT hgt] at hw
    simp only [Prod.mk.injEq, Except.ok.injEq] at hw
    rw [← hw.2]
    refine ⟨?_, ?_, by ring⟩
    · simp [findAccount, find_updBal, hF2, haf, hne, hne2, sub_eq_add_neg]
    · simp [findAccount, find_updBal, hT2, hat, hne, hne2]

/-- Witness for C3: the concrete run moving 10 from account 1 (balance
100) to account 2 (balance 50) leaves balances 90 and 60. -/
theorem transfer_balance_conservation_witness :
    findAccount (TransferTx envW dbW
        { fromAccountID := 1, toAccountID := 2, amount := 10 }).2.db 1 =
      some { id := 1, owner := "alice", balance := 90, currency := "USD" } ∧
    findAccount (TransferTx envW dbW
        { fromAccountID := 1, toAccountID := 2, amount := 10 }).2.db 2 =
      some { id := 2, owner := "bob", balance := 60, currency := "USD" } := by
  obtain ⟨res, s, h⟩ :
      ∃ res s, TransferTx envW dbW { fromAccountID := 1, toAccountID := 2, amount := 10 } =
        (Except.ok res, s) := ⟨_, _, rfl⟩
  have h3 := transfer_balance_conservation envW dbW
    { fromAccountID := 1, toAccountID := 2, amount := 10 } res s _ _ h rfl rfl (by decide)
  rw [h]
  exact ⟨h3.1, h3.2.1⟩

/-- C4: a failed transfer retains no effect: whatever the cause of the
error, the database after the call is the database before it, so it
contains neither the transfer row, nor either entry, nor any balance
change of the attempt. -/
theorem transfer_failure_atomicity (env : TxEnv) (db : DB) (arg : TransferTxParams)
    (e : String) (s : TxState)
    (h : TransferTx env db arg = (Except.error e, s)) :
    s.db.transfers = db.transfers ∧ s.db.entries = db.entries ∧
    (∀ id, findAccount s.db id = findAccount db id) ∧ s.db = db := by
  have hdb := execTx_error_db_unchanged env db (transferTxWork arg) e s h
  exact ⟨by rw [hdb], by rw [hdb], fun id => by rw [hdb], hdb⟩

/-- Witness for C4: the concrete attempt to transfer to the missing
account 99 fails and leaves the database exactly as it was. -/
theorem transfer_failure_atomicity_witness :
    (TransferTx envW dbW { fromAccountID := 1, toAccountID := 99, amount := 10 }).2.db = dbW := by
  obtain ⟨e, s, h⟩ :
      ∃ e s, TransferTx envW dbW { fromAccountID := 1, toAccountID := 99, amount := 10 } =
        (Except.error e, s) := ⟨_, _, rfl⟩
  have h4 := transfer_failure_atomicity envW dbW
    { fromAccountID := 1, toAccountID := 99, amount := 10 } e s h
  rw [h]
  exact h4.2.2.2

/-- C5: every successful transfer creates exactly two entry rows, one on
the source account with the negated amount and one on the destination
account with the amount, whatever the two account ids are; the pair's
amounts sum to zero. -/
theorem transfer_entry_pair (env : TxEnv) (db : DB) (arg : TransferTxParams)
    (res : TransferTxResult) (s : TxState)
    (h : TransferTx env db arg = (Except.ok res, s)) :
    s.db.entries = db.entries ++
      [{ id := db.nextEntryID, accountID := arg.fromAccountID, amount := -arg.amount },
       { id := db.nextEntryID + 1, accountID := arg.toAccountID, amount := arg.amount }] ∧
    res.fromEntry =
      { id := db.nextEntryID, accountID := arg.fromAccountID, amount := -arg.amount } ∧
    res.toEntry =
      { id := db.nextEntryID + 1, accountID := arg.toAccountID, amount := arg.amount } ∧
    -arg.amount + arg.amount = 0 := by
  obtain ⟨hb, hc, ⟨af, hF⟩, ⟨at2, hT⟩, hw⟩ := TransferTx_ok_elim env db arg res s h
  rcases lt_trichotomy arg.fromAccountID arg.toAccountID with hlt | heq | hgt
  · rw [transferTxWork_ok_lt arg db [] af at2 hF hT hlt] at hw
    simp only [Prod.mk.injEq, Except.ok.injEq] at hw
    rw [← hw.2, ← hw.1]
    exact ⟨rfl, rfl, rfl, by ring⟩
  · rw [transferTxWork_ok_self arg db [] af hF heq] at hw
    simp only [Prod.mk.injEq, Except.ok.injEq] at hw
    rw [← hw.2, ← hw.1]
    refine ⟨?_, rfl, rfl, by ring⟩
    rw [heq]
  · rw [transferTxWork_ok_gt arg db [] af at2 hF hT hgt] at hw
    simp only [Prod.mk.injEq, Except.ok.injEq] at hw
    rw [← hw.2, ← hw.1]
    exact ⟨rfl, rfl, rfl, by ring⟩

/-- Witness for C5: the concrete run moving 10 from account 1 to account
2 creates exactly the debit entry on 1 and the credit entry on 2. -/
theorem transfer_entry_pair_witness :
    (TransferTx envW dbW { fromAccountID := 1, toAccountID := 2, amount := 10 }).2.db.entries =
      [{ id := 1, accountID := 1, amount := -10 }, { id := 2, accountID := 2, amount := 10 }] := by
  obtain ⟨res, s, h⟩ :
      ∃ res s, TransferTx envW dbW { fromAccountID := 1, toAccountID := 2, amount := 10 } =
        (Except.ok res, s) := ⟨_, _, rfl⟩
  have h5 := transfer_entry_pair envW dbW
    { fromAccountID := 1, toAccountID := 2, amount := 10 } res s h
  rw [h]
  simpa [dbW] using h5.1

/-- C6: the transaction coordinator commits and returns the result of a
unit of work that succeeds; when the work fails it rolls the database
back and returns the original error unchanged, unless rollback itself
also fails, in which case the returned error combines the original error
and the rollback error. -/
theorem execTx_contract {α : Type} (env : TxEnv) (db : DB)
    (fn : TxState → Except String α × TxState)
    (hb : env.beginErr = none) :
    (∀ a s1, fn { db := db, log := [] } = (Except.ok a, s1) → env.commitErr = none →
      execTx env db fn = (Except.ok a, s1)) ∧
    (∀ e s1, fn { db := db, log := [] } = (Except.error e, s1) → env.rollbackErr = none →
      execTx env db fn = (Except.error e, { db := db, log := s1.log })) ∧
    (∀ e s1 rb, fn { db := db, log := [] } = (Except.error e, s1) → env.rollbackErr = some rb →
      execTx env db fn =
        (Except.error ("tx error: " ++ e ++ ", rollback error: " ++ rb),
         { db := db, log := s1.log })) := by
  refine ⟨?_, ?_, ?_⟩
  · intro a s1 hw hc
    simp [execTx, hb, hw, hc]
  · intro e s1 hw hr
    simp [execTx, hb, hw, hr]
  · intro e s1 rb hw hr
    simp [execTx, hb, hw, hr]

/-- Witness for C6: a unit of work that returns 0 without touching the
state is committed and its result returned. -/
theorem execTx_contract_witness :
    execTx envW dbW (fun s => (Except.ok (0 : Int), s)) =
      (Except.ok (0 : Int), { db := dbW, log := [] }) := by
  exact (execTx_contract envW dbW (fun s => (Except.ok (0 : Int), s)) rfl).1 0
    { db := dbW, log := [] } rfl rfl

/-- C7: every transfer execution issues its store operations in the
fixed order: the transfer insert, the debit entry insert on the
from-account, the credit entry insert on the to-account, then the two
balance updates; on success the issued log is exactly this sequence, on
any outcome the issued log is a prefix of it (a step runs only when all
earlier steps succeeded), and the whole run is one `execTx`
transaction. -/
theorem transfer_operation_sequence (env : TxEnv) (db : DB) (arg : TransferTxParams) :
    (∀ res s, TransferTx env db arg = (Except.ok res, s) → s.log = plannedOps arg) ∧
    (∃ rest, plannedOps arg = (TransferTx env db arg).2.log ++ rest) ∧
    TransferTx env db arg = execTx env db (transferTxWork arg) := by
  refine ⟨?_, ?_, rfl⟩
  · intro res s h
    obtain ⟨hb, hc, ⟨af, hF⟩, ⟨at2, hT⟩, hw⟩ := TransferTx_ok_elim env db arg res s h
    rcases lt_trichotomy arg.fromAccountID arg.toAccountID with hlt | heq | hgt
    · rw [transferTxWork_ok_lt arg db [] af at2 hF hT hlt] at hw
      simp only [Prod.mk.injEq, Except.ok.injEq] at hw
      rw [← hw.2]
      simp
    · rw [transferTxWork_ok_self arg db [] af hF heq] at hw
      simp only [Prod.mk.injEq, Except.ok.injEq] at hw
      rw [← hw.2]
      simp
    · rw [transferTxWork_ok_gt arg db [] af at2 hF hT hgt] at hw
      simp only [Prod.mk.injEq, Except.ok.injEq] at hw
      rw [← hw.2]
      simp
  · cases hb : env.beginErr with
    | some e =>
        refine ⟨plannedOps arg, ?_⟩
        have hlog : (TransferTx env db arg).2.log = [] := by
          simp [TransferTx, execTx, hb]
        rw [hlog]
        simp
    | none =>
        have hlog : (TransferTx env db arg).2.log =
            (transferTxWork arg { db := db, log := [] }).2.log :=
          execTx_log_eq env db (transferTxWork arg) hb
        cases hF : findAccount db arg.fromAccountID with
        | none =>
            refine ⟨[Event.createEntry arg.fromAccountID (-arg.amount),
                     Event.createEntry arg.toAccountID arg.amount] ++
                    (if arg.fromAccountID < arg.toAccountID then
                      [Event.addAccountBalance arg.fromAccountID (-arg.amount),
                       Event.addAccountBalance arg.toAccountID arg.amount]
                     else
                      [Event.addAccountBalance arg.toAccountID arg.amount,
                       Event.addAccountBalance arg.fromAccountID (-arg.amount)]), ?_⟩
            rw [show (TransferTx env db arg).2.log =
                  [Event.createTransfer arg.fromAccountID arg.toAccountID arg.amount] from by
              rw [hlog, transferTxWork_err_noFrom arg db [] hF]
              simp]
            simp [plannedOps]
        | some af =>
          cases hT : findAccount db arg.toAccountID with
          | none =>
              refine ⟨[Event.createEntry arg.fromAccountID (-arg.amount),
                       Event.createEntry arg.toAccountID arg.amount] ++
                      (if arg.fromAccountID < arg.toAccountID then
                        [Event.addAccountBalance arg.fromAccountID (-arg.amount),
                         Event.addAccountBalance arg.toAccountID arg.amount]
                       else
                        [Event.addAccountBalance arg.toAccountID arg.amount,
                         Event.addAccountBalance arg.fromAccountID (-arg.amount)]), ?_⟩
              rw [show (TransferTx env db arg).2.log =
                    [Event.createTransfer arg.fromAccountID arg.toAccountID arg.amount] from by
                rw [hlog, transferTxWork_err_noTo arg db [] af hF hT]
                simp]
              simp [plannedOps]
          | some at2 =>
              refine ⟨[], ?_⟩
              rcases lt_trichotomy arg.fromAccountID arg.toAccountID with hlt | heq | hgt
              · rw [hlog, transferTxWork_ok_lt arg db [] af at2 hF hT hlt]
                simp
              · rw [hlog, transferTxWork_ok_self arg db [] af hF heq]
                simp
              · rw [hlog, transferTxWork_ok_gt arg db [] af at2 hF hT hgt]
                simp

/-- Witness for C7: the concrete successful run moving 10 from account 1
to account 2 issued exactly the planned operation sequence. -/
theorem transfer_operation_sequence_witness :
    (TransferTx envW dbW { fromAccountID := 1, toAccountID := 2, amount := 10 }).2.log =
      plannedOps { fromAccountID := 1, toAccountID := 2, amount := 10 } := by
  obtain ⟨res, s, h⟩ :
      ∃ res s, TransferTx envW dbW { fromAccountID := 1, toAccountID := 2, amount := 10 } =
        (Except.ok res, s) := ⟨_, _, rfl⟩
  have h7 := (transfer_operation_sequence envW dbW
    { fromAccountID := 1, toAccountID := 2, amount := 10 }).1 res s h
  rw [h]
  exact h7

/-- C9: a self-transfer (equal from- and to-account ids) is not
rejected: absent injected storage failures it succeeds, creating one
transfer row and two entry rows on that single account with amounts
minus-amount and plus-amount, applying the plus-amount balance delta
before the minus-amount delta, and leaving the account row, in
particular its balance, unchanged. -/
theorem transfer_self_ok (env : TxEnv) (db : DB) (arg : TransferTxParams) (af : Account)
    (hb : env.beginErr = none) (hc : env.commitErr = none)
    (heq : arg.fromAccountID = arg.toAccountID)
    (hF : findAccount db arg.fromAccountID = some af) :
    (∃ res, (TransferTx env db arg).1 = Except.ok res) ∧
    (TransferTx env db arg).2.db.transfers =
      db.transfers ++ [{ id := db.nextTransferID, fromAccountID := arg.fromAccountID,
                         toAccountID := arg.toAccountID, amount := arg.amount }] ∧
    (TransferTx env db arg).2.db.entries =
      db.entries ++
        [{ id := db.nextEntryID, accountID := arg.fromAccountID, amount := -arg.amount },
         { id := db.nextEntryID + 1, accountID := arg.fromAccountID, amount := arg.amount }] ∧
    (TransferTx env db arg).2.log.filter isBalanceOp =
      [Event.addAccountBalance arg.fromAccountID arg.amount,
       Event.addAccountBalance arg.fromAccountID (-arg.amount)] ∧
    findAccount (TransferTx env db arg).2.db arg.fromAccountID = some af := by
  have hTT : TransferTx env db arg = _ :=
    execTx_ok_intro env db (transferTxWork arg) _ _ hb hc
      (transferTxWork_ok_self arg db [] af hF heq)
  rw [hTT]
  have hnlt : ¬ arg.fromAccountID < arg.toAccountID := by rw [heq]; exact lt_irrefl _
  have hT2 : db.accounts.find? (fun a => a.id == arg.toAccountID) = some af := heq ▸ hF
  have haf2 : af.id = arg.toAccountID := findAccount_id hT2
  refine ⟨⟨_, rfl⟩, by rw [heq], by rw [heq], ?_, ?_⟩
  · simp [plannedOps, isBalanceOp, hnlt, heq]
  · simp [findAccount, find_updBal, hT2, haf2, heq]
    rw [← haf2]

/-- Witness for C9: the concrete self-transfer of 10 on account 1 leaves
the account row unchanged at balance 100. -/
theorem transfer_self_ok_witness :
    findAccount (TransferTx envW dbW
        { fromAccountID := 1, toAccountID := 1, amount := 10 }).2.db 1 =
      some { id := 1, owner := "alice", balance := 100, currency := "USD" } := by
  exact (transfer_self_ok envW dbW { fromAccountID := 1, toAccountID := 1, amount := 10 }
    { id := 1, owner := "alice", balance := 100, currency := "USD" } rfl rfl rfl rfl).2.2.2.2

/-- C10: when beginning the transaction fails, the coordinator returns
that error at once with the database untouched, and the outcome does not
depend on the unit of work, which is therefore never invoked. -/
theorem execTx_begin_failure {α : Type} (env : TxEnv) (db : DB) (e : String)
    (fn g : TxState → Except String α × TxState)
    (hb : env.beginErr = some e) :
    execTx env db fn = (Except.error e, { db := db, log := [] }) ∧
    execTx env db fn = execTx env db g := by
  constructor
  · simp [execTx, hb]
  · simp [execTx, hb]

/-- Witness for C10: with an injected begin failure the coordinator
reports that error and leaves the database alone. -/
theorem execTx_begin_failure_witness :
    execTx { beginErr := some "begin boom", commitErr := none, rollbackErr := none } dbW
        (fun s => (Except.ok (0 : Int), s)) =
      (Except.error "begin boom", { db := dbW, log := [] }) := by
  exact (execTx_begin_failure
    { beginErr := some "begin boom", commitErr := none, rollbackErr := none } dbW "begin boom"
    (fun s => (Except.ok (0 : Int), s)) (fun s => (Except.error "other", s)) rfl).1

end GoBankPro
